import Mathlib

/-!
# Verification of the conch voice-capture pipeline

Shallow embedding of the conch repository (pkg/speech, pkg/common,
pkg/status, cmd/conch) and proofs of the specified behavioural claims.

Machine integers of the source (int16 samples, int64 accumulators) are
modelled as `Int`/`Nat`; no sum in the capture loop can approach 2^63
for any realistic frame, so overflow reduction is omitted.
-/

namespace Conch

/-! ## Audio configuration constants (part_004, lines 27-38) -/

/-- Sample rate constant, `AudioFrequency = 16000`. -/
def AudioFrequency : Nat := 16000

/-- Voice-activity threshold constant, `VadThreshold = 100`. -/
def VadThreshold : Nat := 100

/-- Frames of silence that end a recording, `VadSilenceFrames = 10`. -/
def VadSilenceFrames : Nat := 10

/-! ## Energy classifier

The capture loop computes the average absolute sample magnitude of each
frame (`sum += |sample|; average := sum / len(samples)`; part_004 lines
325-334) and compares it against the threshold (`average >
localVadThreshold`).  `detectVoice` (part_004 lines 411-425) is the
same computation.  Sums of absolute values are non-negative, so Go's
truncating `int64` division agrees with `Nat` division. -/

/-- Average absolute sample magnitude over a frame. -/
def vadAverage (samples : List Int) : Nat :=
  (samples.map Int.natAbs).sum / samples.length

/-- Voice classifier of part_004 line 411 (`detectVoice`): voiced iff
average magnitude exceeds the threshold. -/
def detectVoice (samples : List Int) : Bool :=
  decide (VadThreshold < vadAverage samples)

/-! ## The capture state machine (captureAudio, part_004 lines 253-408)

Per-iteration state of the loop: the local `isRecording` flag, the
local `silenceFrames` counter, and the shared accumulator
`s.audioData.Samples`.  One frame (the int16 samples decoded from one
successful `DequeueAudio` read) drives one transition; the optional
output is the cloned utterance offered on the `recordingStopped`
channel. -/

structure VadState where
  isRecording : Bool
  silenceFrames : Nat
  samples : List Int
deriving DecidableEq

/-- One iteration of the voice-activity section of `captureAudio`
(part_004 lines 340-403).  When idle, a voiced frame starts recording
with a cleared accumulator; while recording every frame is appended,
voiced frames reset the silence counter, and the segment closes once
the counter reaches `VadSilenceFrames`, emitting the accumulator when
it holds more than `AudioFrequency/4` samples. -/
def vadStep (s : VadState) (f : List Int) : VadState × Option (List Int) :=
  if s.isRecording then
    let acc := s.samples ++ f
    if detectVoice f then
      (⟨true, 0, acc⟩, none)
    else if VadSilenceFrames ≤ s.silenceFrames + 1 then
      (⟨false, 0, acc⟩, if AudioFrequency / 4 < acc.length then some acc else none)
    else
      (⟨true, s.silenceFrames + 1, acc⟩, none)
  else
    if detectVoice f then
      (⟨true, 0, f⟩, none)
    else
      (s, none)

/-- Run the capture loop from a given state over a frame sequence,
collecting the emitted utterances in order. -/
def captureFrom (s : VadState) : List (List Int) → VadState × List (List Int)
  | [] => (s, [])
  | f :: t =>
    let p := vadStep s f
    let q := captureFrom p.1 t
    (q.1, p.2.toList ++ q.2)

/-- The capture loop from its initial state (`silenceFrames := 0`,
`isRecording := false`, empty accumulator). -/
def captureRun (frames : List (List Int)) : VadState × List (List Int) :=
  captureFrom ⟨false, 0, []⟩ frames

/-! ## Declarative segmentation (spec section 8)

Written from the spec's words, for comparison with the machine: a
segment starts at a voiced frame and runs until the configured number
of consecutive silent frames have occurred; its samples are the
concatenation of all its frames. -/

/-- Scan for the close of an open segment when `cnt` consecutive silent
frames have just been seen.  Returns the frames up to and including the
closing frame, and the remaining frames. -/
def specFindClose : Nat → List (List Int) → Option (List (List Int) × List (List Int))
  | _, [] => none
  | cnt, f :: t =>
    if detectVoice f then
      match specFindClose 0 t with
      | none => none
      | some p => some (f :: p.1, p.2)
    else if VadSilenceFrames ≤ cnt + 1 then
      some ([f], t)
    else
      match specFindClose (cnt + 1) t with
      | none => none
      | some p => some (f :: p.1, p.2)

/-- The closed segments of a frame sequence, per the spec's
description: skip silence, open a segment at the first voiced frame,
close it after the silence tail, recurse on the remainder.  A trailing
unclosed segment produces nothing. -/
def specSegments (l : List (List Int)) : List (List Int) :=
  match l with
  | [] => []
  | f :: t =>
    if detectVoice f then
      match h : specFindClose 0 t with
      | none => []
      | some p => (f :: p.1).flatten :: specSegments p.2
    else specSegments t
termination_by l.length
decreasing_by
  · have key : ∀ (cnt : Nat) (l : List (List Int))
        (q : List (List Int) × List (List Int)),
        specFindClose cnt l = some q → q.2.length < l.length := by
      intro cnt l
      induction l generalizing cnt with
      | nil => intro q hq; simp [specFindClose] at hq
      | cons g u ih =>
        intro q hq
        rw [specFindClose] at hq
        by_cases hv : detectVoice g
        · rw [if_pos hv] at hq
          cases hfc : specFindClose 0 u with
          | none => rw [hfc] at hq; exact absurd hq (by simp)
          | some r =>
            rw [hfc] at hq
            have := ih 0 r hfc
            simp only [Option.some.injEq] at hq
            subst hq
            simp only [List.length_cons]
            omega
        · rw [if_neg hv] at hq
          by_cases hc : VadSilenceFrames ≤ cnt + 1
          · rw [if_pos hc] at hq
            simp only [Option.some.injEq] at hq
            subst hq
            simp
          · rw [if_neg hc] at hq
            cases hfc : specFindClose (cnt + 1) u with
            | none => rw [hfc] at hq; exact absurd hq (by simp)
            | some r =>
              rw [hfc] at hq
              have := ih (cnt + 1) r hfc
              simp only [Option.some.injEq] at hq
              subst hq
              simp only [List.length_cons]
              omega
    have := key 0 t p h
    simp only [List.length_cons]
    omega
  · simp

/-- The minimum-duration floor: strictly more than a quarter second of
audio (part_004 line 378: `len(...) > AudioFrequency/4`). -/
def meetsFloor (s : List Int) : Bool :=
  decide (AudioFrequency / 4 < s.length)

/-- What the loop still emits from an open recording: the close of the
current segment (subject to the floor) followed by the later segments. -/
def closeSpec (cnt : Nat) (acc : List Int) (l : List (List Int)) : List (List Int) :=
  match specFindClose cnt l with
  | none => []
  | some p =>
    (if AudioFrequency / 4 < (acc ++ p.1.flatten).length
      then [acc ++ p.1.flatten] else []) ++
      (specSegments p.2).filter meetsFloor

/-! ## Concrete frames used by witnesses and counterexamples -/

/-- A concrete silent frame: 150 zero samples. -/
def silentFrameW : List Int := List.replicate 150 0

/-- A concrete voiced frame: 150 samples of value 1000 (average 1000,
above the threshold 100). -/
def voicedFrameW : List Int := List.replicate 150 1000

/-- The C1 scenario input: 20 silent, 30 voiced, 15 silent frames;
total voiced samples 4500 > 4000. -/
def c1Frames : List (List Int) :=
  List.replicate 20 silentFrameW ++ List.replicate 30 voicedFrameW ++
    List.replicate 15 silentFrameW

/-- The C2 boundary input: one voiced frame of 3990 samples followed by
ten one-sample silent frames; the closed segment has exactly 4000
samples. -/
def c2Frames : List (List Int) :=
  List.replicate 3990 (1000 : Int) :: List.replicate 10 [0]

/-! ## The transcription request path (whisper.go, lines 360-471)

The state checks, the temporary WAV artifact, the bounded retry loop
(`for attempt := 0; attempt < s.maxRetries; attempt++`), the HTTP
status check and the JSON decode of `Transcribe` are embedded as a pure
function of an oracle giving each attempt's transport-level outcome
(`none` = transport failure, `some r` = a response). -/

/-- Transport-level response: HTTP status, whether the body decodes as
JSON, and the decoded text. -/
structure HttpResp where
  status : Nat
  decodes : Bool
  text : String
deriving DecidableEq

/-- Error taxonomy of `Transcribe`. -/
inductive TranscribeError where
  | notRunning
  | validation
  | transport
  | server (status : Nat)
  | decodeFail
deriving DecidableEq

/-- Successful transcription result (`WhisperServerResult` with
`Success = true`). -/
structure WhisperResultM where
  text : String
  success : Bool
deriving DecidableEq

/-- Retry budget set by `NewWhisperServerService` (`maxRetries: 3`). -/
def maxRetriesM : Nat := 3

/-- The retry loop of `Transcribe` (whisper.go lines 428-443): `attempt`
attempts made so far, `rem` attempts remaining; stops at the first
transport-level success.  Returns the number of attempts made and the
last transport outcome. -/
def retryLoop (oracle : Nat → Option HttpResp) :
    Nat → Nat → Nat × Option HttpResp
  | attempt, 0 => (attempt, none)
  | attempt, rem + 1 =>
    match oracle attempt with
    | some r => (attempt + 1, some r)
    | none => retryLoop oracle (attempt + 1) rem

/-- The decision path of `Transcribe` (whisper.go lines 360-471):
running check, empty check, temporary WAV artifact, retry loop, status
check, decode.  Returns the result, the number of request attempts
made, and whether the WAV artifact was written. -/
def transcribeModel (isRunning : Bool) (samples : List Int)
    (oracle : Nat → Option HttpResp) :
    Except TranscribeError WhisperResultM × Nat × Bool :=
  if !isRunning then (.error .notRunning, 0, false)
  else if samples.length = 0 then (.error .validation, 0, false)
  else
    let pr := retryLoop oracle 0 maxRetriesM
    (match pr.2 with
      | none => .error .transport
      | some r =>
        if r.status ≠ 200 then .error (.server r.status)
        else if !r.decodes then .error .decodeFail
        else .ok ⟨r.text, true⟩,
      pr.1, true)

/-! ## Cleanup of the two services (part_004 480-517, whisper.go 491-556)

The sequential effect of the cleanup paths on each service's state;
device/process side effects are recorded as state flags.  Errors are
`Bool` (`false` = the Go `nil` error both paths always return). -/

/-- Fields of `SpeechService` relevant to `Cleanup`, plus flags for the
SDL side effects. -/
structure SpeechSvcState where
  isInitialized : Bool
  isListening : Bool
  isRecording : Bool
  isTranscribing : Bool
  isShutdown : Bool
  deviceID : Nat
  devicePaused : Bool
  deviceClosed : Bool
  sdlQuit : Bool
deriving DecidableEq

/-- Effect of `StopListening` (part_004 lines 198-222): error when not
listening, else clear the flag and pause the device. -/
def stopListeningM (s : SpeechSvcState) : SpeechSvcState × Bool :=
  if !s.isListening then (s, true)
  else ({ s with isListening := false, devicePaused := true }, false)

/-- Effect of `SpeechService.Cleanup` (part_004 lines 480-517): mark
shutdown, stop listening if active, snapshot-and-clear
`isInitialized`, and release SDL resources once. -/
def cleanupSpeechM (s : SpeechSvcState) : SpeechSvcState × Bool :=
  let s1 := { s with isShutdown := true }
  let s2 := if s1.isListening then (stopListeningM s1).1 else s1
  let isInit := s2.isInitialized
  let s3 := { s2 with isInitialized := false }
  let s4 :=
    if isInit then
      let s5 :=
        if 0 < s3.deviceID then
          { s3 with devicePaused := true, deviceClosed := true }
        else s3
      { s5 with sdlQuit := true }
    else s3
  (s4, false)

/-- State component of `SpeechService.Cleanup`. -/
def speechCleanupState (s : SpeechSvcState) : SpeechSvcState :=
  (cleanupSpeechM s).1

/-- Fields of `WhisperServerService` relevant to `Cleanup`. -/
structure WhisperSvcState where
  isRunning : Bool
  procAlive : Bool
deriving DecidableEq

/-- Effect of `WhisperServerService.Cleanup` (whisper.go lines
491-556): no-op when not running; otherwise fence new calls by
clearing `isRunning`, then terminate the subprocess (interrupt, kill,
system kill — each failure logged, never returned). -/
def cleanupWhisperM (s : WhisperSvcState) : WhisperSvcState × Bool :=
  if !s.isRunning then (s, false)
  else (⟨false, false⟩, false)

/-- State component of `WhisperServerService.Cleanup`. -/
def whisperCleanupState (s : WhisperSvcState) : WhisperSvcState :=
  (cleanupWhisperM s).1

/-! ## The shutdown coordinator (part_003, lines 19-124) -/

/-- A registered service: its name and the error its shutdown
operation returns (`none` = success). -/
structure SvcEntry where
  name : String
  shutdownErr : Option String
deriving DecidableEq

/-- The coordinator's registry (`GracefulShutdown.services`, guarded by
`gs.mu`), with its global timeout. -/
structure ShutdownRegistry where
  services : List SvcEntry
  timeout : Nat
deriving DecidableEq

/-- Effect of `Register` (part_003 lines 39-44): append under lock. -/
def registerSvc (gs : ShutdownRegistry) (svc : SvcEntry) : ShutdownRegistry :=
  { gs with services := gs.services ++ [svc] }

/-- The snapshot `shutdown` copies out of the registry under lock
(part_003 lines 77-80). -/
def snapshotServices (gs : ShutdownRegistry) : List SvcEntry := gs.services

/-- The invocations `shutdown` performs over a snapshot (part_003 lines
82-109): early return on an empty snapshot, otherwise each service's
shutdown is called exactly once and its error is logged, never
propagated. -/
def shutdownPass (svcs : List SvcEntry) : List (String × Option String) :=
  if svcs.length = 0 then [] else svcs.map (fun s => (s.name, s.shutdownErr))

/-! ## Timing of the shutdown wait (part_003, lines 88-124)

The goroutines run the services' shutdowns in parallel, so the
`WaitGroup` completes at the maximum of the individual durations
(`none` = a shutdown that never finishes); the `select` between `done`
and `ctx.Done()` returns at the earlier of that completion and the
timeout. -/

/-- Completion time of `wg.Wait()` over parallel shutdown durations. -/
def wgDoneTime : List (Option Nat) → Option Nat
  | [] => some 0
  | d :: t =>
    match d, wgDoneTime t with
    | some a, some b => some (max a b)
    | _, _ => none

/-- Return time of the final `select`: whichever of the WaitGroup
completion and the context timeout comes first. -/
def shutdownReturnTime (timeout : Nat) (ds : List (Option Nat)) : Nat :=
  match wgDoneTime ds with
  | some m => min m timeout
  | none => timeout

/-- A service with duration `d` has completed by time `t`. -/
def completesBy (d : Option Nat) (t : Nat) : Prop :=
  ∃ a, d = some a ∧ a ≤ t

/-! ## The single-slot handoff channel (part_004, lines 112-122, 386-394)

`recordingStopped` is `make(chan *AudioData, 1)`; emission is a
`select` with a `default` branch, i.e. a non-blocking offer that drops
the new utterance when the slot is full; `WaitForRecording` receives
from it. -/

/-- Events interleaving capture-loop frames with consumer receives. -/
inductive HandoffEvent where
  | frame (f : List Int)
  | consume

/-- Non-blocking offer on a capacity-one channel: enqueue when the slot
is free, otherwise drop the new value and keep the pending one. -/
def trySend (q : List (List Int)) (u : List Int) : List (List Int) :=
  if q.length < 1 then q ++ [u] else q

/-- Combined step: a frame drives the capture machine and any emitted
utterance is offered non-blockingly; a consume takes the pending
utterance if present. -/
def handoffStep (st : VadState × List (List Int)) (ev : HandoffEvent) :
    VadState × List (List Int) :=
  match ev with
  | .frame f =>
    ((vadStep st.1 f).1,
      match (vadStep st.1 f).2 with
      | some u => trySend st.2 u
      | none => st.2)
  | .consume => (st.1, st.2.drop 1)

/-- Run the producer/consumer system from the initial state (idle
machine, empty channel). -/
def handoffRun (evs : List HandoffEvent) : VadState × List (List Int) :=
  evs.foldl handoffStep (⟨false, 0, []⟩, [])

/-! ## WAVE container round trip (writeWavFile part_000 33-72,
saveWavFile whisper.go 301-357, readWavFile whisper_test.go 96-140)

`writeWavFile` and `saveWavFile` produce the same bytes: a 44-byte
RIFF/WAVE PCM header followed by the samples, little-endian int16.
`readWavFile` skips 44 bytes, decodes byte pairs as little-endian
int16, and hard-codes the sample rate 16000. -/

/-- Little-endian bytes of a 16-bit value. -/
def u16le (n : Nat) : List Nat := [n % 256, n / 256 % 256]

/-- Little-endian bytes of a 32-bit value. -/
def u32le (n : Nat) : List Nat :=
  [n % 256, n / 256 % 256, n / 65536 % 256, n / 16777216 % 256]

/-- Two's-complement little-endian encoding of an int16 sample, as
`binary.Write` emits it. -/
def int16ToBytes (s : Int) : List Nat := u16le (s % 65536).toNat

/-- The 44-byte `wavHeader` of part_000 lines 45-59 (identical in
whisper.go lines 330-344): RIFF chunk, fmt chunk (PCM, mono, 16-bit),
data chunk. -/
def wavHeaderBytes (numSamples sampleRate : Nat) : List Nat :=
  [82, 73, 70, 70] ++ u32le (36 + numSamples * 2) ++
  [87, 65, 86, 69] ++ [102, 109, 116, 32] ++
  u32le 16 ++ u16le 1 ++ u16le 1 ++
  u32le sampleRate ++ u32le (sampleRate * 1 * 16 / 8) ++
  u16le 2 ++ u16le 16 ++
  [100, 97, 116, 97] ++ u32le (numSamples * 2)

/-- Byte stream written by `writeWavFile`/`saveWavFile`: header then
little-endian samples. -/
def writeWavBytes (samples : List Int) (sampleRate : Nat) : List Nat :=
  wavHeaderBytes samples.length sampleRate ++ (samples.map int16ToBytes).flatten

/-- Decode of `int16(binary.LittleEndian.Uint16(...))`: reassemble the
16-bit value and reinterpret as two's complement. -/
def bytesToInt16 (lo hi : Nat) : Int :=
  if lo + 256 * hi < 32768 then ((lo + 256 * hi : Nat) : Int)
  else ((lo + 256 * hi : Nat) : Int) - 65536

/-- The byte-pair loop of `readWavFile` (whisper_test.go lines
120-136): consecutive pairs become samples; a trailing odd byte is
ignored. -/
def bytesToSamples : List Nat → List Int
  | lo :: hi :: t => bytesToInt16 lo hi :: bytesToSamples t
  | _ => []

/-- Effect of `readWavFile`: skip the 44-byte header, decode the rest
pairwise, and assume a 16 kHz sample rate. -/
def readWavBytes (bytes : List Nat) : List Int × Nat :=
  (bytesToSamples (bytes.drop 44), 16000)

/-! ## The status reporter's shutdown (part_002, lines 25-31, 64-67)

`Shutdown` executes `close(s.done)`.  Per Go language semantics,
closing an already-closed channel is a runtime panic; the panic is
modelled as the `Except` error case. -/

/-- Closing a channel: succeeds once, panics on a closed channel. -/
def closeChan (alreadyClosed : Bool) : Except Unit Bool :=
  if alreadyClosed then .error () else .ok true

/-- State of `StatusService` after `NewStatusServiceWithWriter`: the
`done` channel is freshly made, hence open. -/
def newStatusServiceModel : Bool := false

/-- Effect of `StatusService.Shutdown` (part_002 lines 64-67): close
`done` and return the nil error (`false`), or propagate the panic. -/
def statusShutdownM (doneClosed : Bool) : Except Unit (Bool × Bool) :=
  match closeChan doneClosed with
  | .ok c => .ok (c, false)
  | .error e => .error e

/-!
# Theorems
-/

/-! ### Characteristic equations of the capture definitions -/

theorem captureFrom_nil (s : VadState) : captureFrom s [] = (s, []) := rfl

theorem captureFrom_cons (s : VadState) (f : List Int) (t : List (List Int)) :
    captureFrom s (f :: t) =
      ((captureFrom (vadStep s f).1 t).1,
        (vadStep s f).2.toList ++ (captureFrom (vadStep s f).1 t).2) := rfl

theorem vadStep_idle_voiced (sil : Nat) (acc f : List Int) (hv : detectVoice f = true) :
    vadStep ⟨false, sil, acc⟩ f = (⟨true, 0, f⟩, none) := by
  simp [vadStep, hv]

theorem vadStep_idle_silent (sil : Nat) (acc f : List Int) (hv : detectVoice f = false) :
    vadStep ⟨false, sil, acc⟩ f = (⟨false, sil, acc⟩, none) := by
  simp [vadStep, hv]

theorem vadStep_rec_voiced (cnt : Nat) (acc f : List Int) (hv : detectVoice f = true) :
    vadStep ⟨true, cnt, acc⟩ f = (⟨true, 0, acc ++ f⟩, none) := by
  simp [vadStep, hv]

theorem vadStep_rec_silent_close (cnt : Nat) (acc f : List Int)
    (hv : detectVoice f = false) (hc : VadSilenceFrames ≤ cnt + 1) :
    vadStep ⟨true, cnt, acc⟩ f =
      (⟨false, 0, acc ++ f⟩,
        if AudioFrequency / 4 < (acc ++ f).length then some (acc ++ f) else none) := by
  simp [vadStep, hv, hc]

theorem vadStep_rec_silent_cont (cnt : Nat) (acc f : List Int)
    (hv : detectVoice f = false) (hc : ¬ VadSilenceFrames ≤ cnt + 1) :
    vadStep ⟨true, cnt, acc⟩ f = (⟨true, cnt + 1, acc ++ f⟩, none) := by
  simp [vadStep, hv, hc]

theorem specFindClose_cons_voiced (cnt : Nat) (f : List Int) (t : List (List Int))
    (hv : detectVoice f = true) :
    specFindClose cnt (f :: t) =
      (specFindClose 0 t).map (fun p => (f :: p.1, p.2)) := by
  rw [specFindClose, if_pos hv]
  cases specFindClose 0 t <;> rfl

theorem specFindClose_cons_close (cnt : Nat) (f : List Int) (t : List (List Int))
    (hv : detectVoice f = false) (hc : VadSilenceFrames ≤ cnt + 1) :
    specFindClose cnt (f :: t) = some ([f], t) := by
  rw [specFindClose]
  simp [hv, hc]

theorem specFindClose_cons_cont (cnt : Nat) (f : List Int) (t : List (List Int))
    (hv : detectVoice f = false) (hc : ¬ VadSilenceFrames ≤ cnt + 1) :
    specFindClose cnt (f :: t) =
      (specFindClose (cnt + 1) t).map (fun p => (f :: p.1, p.2)) := by
  rw [specFindClose]
  simp only [hv, Bool.false_eq_true, if_false, if_neg hc]
  cases specFindClose (cnt + 1) t <;> rfl

theorem specSegments_nil : specSegments [] = [] := by
  rw [specSegments]

theorem specSegments_cons_silent (f : List Int) (t : List (List Int))
    (hv : detectVoice f = false) :
    specSegments (f :: t) = specSegments t := by
  rw [specSegments]
  simp [hv]

theorem specSegments_cons_voiced_none (f : List Int) (t : List (List Int))
    (hv : detectVoice f = true) (hfc : specFindClose 0 t = none) :
    specSegments (f :: t) = [] := by
  rw [specSegments]
  simp only [hv, if_true]
  split
  · rfl
  · next p heq => rw [hfc] at heq; exact absurd heq (by simp)

theorem specSegments_cons_voiced_some (f : List Int) (t : List (List Int))
    (p : List (List Int) × List (List Int))
    (hv : detectVoice f = true) (hfc : specFindClose 0 t = some p) :
    specSegments (f :: t) = (f :: p.1).flatten :: specSegments p.2 := by
  rw [specSegments]
  simp only [hv, if_true]
  split
  · next heq => rw [hfc] at heq; exact absurd heq (by simp)
  · next q heq =>
    rw [hfc] at heq
    simp only [Option.some.injEq] at heq
    subst heq
    rfl

/-! ### The machine agrees with the declarative segmentation -/

/-- Core refinement: from the idle state the loop's emissions are the
floor-filtered declarative segments; from a recording state they are
`closeSpec`. -/
theorem captureFrom_out (l : List (List Int)) :
    (∀ (sil : Nat) (acc : List Int),
        (captureFrom ⟨false, sil, acc⟩ l).2 = (specSegments l).filter meetsFloor)
  ∧ (∀ (cnt : Nat) (acc : List Int), cnt < VadSilenceFrames →
        (captureFrom ⟨true, cnt, acc⟩ l).2 = closeSpec cnt acc l) := by
  induction l with
  | nil =>
    refine ⟨fun sil acc => ?_, fun cnt acc h => ?_⟩
    · simp [captureFrom_nil, specSegments_nil]
    · simp [captureFrom_nil, closeSpec, specFindClose]
  | cons f t ih =>
    refine ⟨fun sil acc => ?_, fun cnt acc hcnt => ?_⟩
    · -- idle state
      rw [captureFrom_cons]
      by_cases hv : detectVoice f
      · rw [vadStep_idle_voiced sil acc f hv]
        simp only [Option.toList_none, List.nil_append]
        rw [ih.2 0 f (by simp [VadSilenceFrames])]
        cases hfc : specFindClose 0 t with
        | none =>
          rw [specSegments_cons_voiced_none f t hv hfc]
          simp [closeSpec, hfc]
        | some p =>
          rw [specSegments_cons_voiced_some f t p hv hfc]
          simp only [closeSpec, hfc]
          rw [List.filter_cons]
          have hj : (f :: p.1).flatten = f ++ p.1.flatten := List.flatten_cons
          by_cases hlen : AudioFrequency / 4 < (f ++ p.1.flatten).length
          · rw [if_pos hlen,
              if_pos (show meetsFloor ((f :: p.1).flatten) = true by
                simp only [meetsFloor, decide_eq_true_eq, hj]; exact hlen)]
            simp [hj]
          · rw [if_neg hlen,
              if_neg (show ¬ meetsFloor ((f :: p.1).flatten) = true by
                simp only [meetsFloor, decide_eq_true_eq, hj]; exact hlen)]
            simp
      · rw [vadStep_idle_silent sil acc f (by simpa using hv)]
        simp only [Option.toList_none, List.nil_append]
        rw [ih.1 sil acc, specSegments_cons_silent f t (by simpa using hv)]
    · -- recording state
      rw [captureFrom_cons]
      by_cases hv : detectVoice f
      · rw [vadStep_rec_voiced cnt acc f hv]
        simp only [Option.toList_none, List.nil_append]
        rw [ih.2 0 (acc ++ f) (by simp [VadSilenceFrames])]
        simp only [closeSpec, specFindClose_cons_voiced cnt f t hv]
        cases hfc : specFindClose 0 t with
        | none => simp [hfc]
        | some p =>
          simp only [hfc, Option.map_some]
          have hj : (f :: p.1).flatten = f ++ p.1.flatten := List.flatten_cons
          simp [hj, List.append_assoc]
      · by_cases hc : VadSilenceFrames ≤ cnt + 1
        · rw [vadStep_rec_silent_close cnt acc f (by simpa using hv) hc]
          simp only []
          rw [ih.1 0 (acc ++ f)]
          rw [closeSpec, specFindClose_cons_close cnt f t (by simpa using hv) hc]
          simp only [List.flatten_cons, List.flatten_nil, List.append_nil]
          by_cases hlen : AudioFrequency / 4 < (acc ++ f).length
          · rw [if_pos hlen, if_pos hlen]; rfl
          · rw [if_neg hlen, if_neg hlen]; rfl
        · rw [vadStep_rec_silent_cont cnt acc f (by simpa using hv) hc]
          simp only [Option.toList_none, List.nil_append]
          rw [ih.2 (cnt + 1) (acc ++ f) (by omega)]
          simp only [closeSpec, specFindClose_cons_cont cnt f t (by simpa using hv) hc]
          cases hfc : specFindClose (cnt + 1) t with
          | none => simp [hfc]
          | some p =>
            simp only [hfc, Option.map_some]
            have hj : (f :: p.1).flatten = f ++ p.1.flatten := List.flatten_cons
            simp [hj, List.append_assoc]

/-! ### Runs of silent and voiced frames -/

/-- While idle, silent frames change nothing. -/
theorem captureFrom_idle_silent (s : List (List Int))
    (hs : ∀ f ∈ s, detectVoice f = false) (sil : Nat) (acc : List Int)
    (rest : List (List Int)) :
    captureFrom ⟨false, sil, acc⟩ (s ++ rest) = captureFrom ⟨false, sil, acc⟩ rest := by
  induction s with
  | nil => rfl
  | cons f t ih =>
    rw [List.cons_append, captureFrom_cons,
      vadStep_idle_silent sil acc f (hs f (by simp))]
    simp only [Option.toList_none, List.nil_append]
    rw [ih (fun g hg => hs g (by simp [hg]))]

/-- While idle, a tail of silent frames produces nothing. -/
theorem captureFrom_idle_silent_nil (s : List (List Int))
    (hs : ∀ f ∈ s, detectVoice f = false) (sil : Nat) (acc : List Int) :
    captureFrom ⟨false, sil, acc⟩ s = (⟨false, sil, acc⟩, []) := by
  have h := captureFrom_idle_silent s hs sil acc []
  rwa [List.append_nil, captureFrom_nil] at h

/-- While recording, a run of voiced frames appends its samples and
keeps the silence counter at zero. -/
theorem captureFrom_rec_voiced_run (v : List (List Int))
    (hv : ∀ f ∈ v, detectVoice f = true) (acc : List Int)
    (rest : List (List Int)) :
    captureFrom ⟨true, 0, acc⟩ (v ++ rest) =
      captureFrom ⟨true, 0, acc ++ v.flatten⟩ rest := by
  induction v generalizing acc with
  | nil => simp
  | cons f t ih =>
    rw [List.cons_append, captureFrom_cons,
      vadStep_rec_voiced 0 acc f (hv f (by simp))]
    simp only [Option.toList_none, List.nil_append]
    rw [ih (fun g hg => hv g (by simp [hg])) (acc ++ f)]
    rw [List.flatten_cons, List.append_assoc]

/-- While recording, enough silent frames close the segment: the first
`VadSilenceFrames - cnt` of them are still appended, the accumulator is
emitted iff it clears the floor, and the loop returns to idle. -/
theorem captureFrom_rec_silent_close (s : List (List Int))
    (hs : ∀ f ∈ s, detectVoice f = false) :
    ∀ (cnt : Nat) (acc : List Int), cnt < VadSilenceFrames →
      VadSilenceFrames ≤ cnt + s.length →
      captureFrom ⟨true, cnt, acc⟩ s =
        ((captureFrom ⟨false, 0, acc ++ (s.take (VadSilenceFrames - cnt)).flatten⟩
            (s.drop (VadSilenceFrames - cnt))).1,
          (if AudioFrequency / 4 <
              (acc ++ (s.take (VadSilenceFrames - cnt)).flatten).length
            then [acc ++ (s.take (VadSilenceFrames - cnt)).flatten] else []) ++
          (captureFrom ⟨false, 0, acc ++ (s.take (VadSilenceFrames - cnt)).flatten⟩
            (s.drop (VadSilenceFrames - cnt))).2) := by
  induction s with
  | nil =>
    intro cnt acc hcnt hlen
    simp only [List.length_nil] at hlen
    omega
  | cons f t ih =>
    intro cnt acc hcnt hlen
    have hf : detectVoice f = false := hs f (by simp)
    by_cases hc : VadSilenceFrames ≤ cnt + 1
    · -- this frame closes the segment
      have h1 : VadSilenceFrames - cnt = 1 := by omega
      rw [captureFrom_cons, vadStep_rec_silent_close cnt acc f hf hc]
      rw [h1]
      simp only [List.take_succ_cons, List.take_zero, List.drop_succ_cons,
        List.drop_zero, List.flatten_cons, List.flatten_nil, List.append_nil]
      by_cases hflr : AudioFrequency / 4 < (acc ++ f).length
      · rw [if_pos hflr, if_pos hflr]; rfl
      · rw [if_neg hflr, if_neg hflr]; rfl
    · -- counter increments, recording continues
      have h2 : VadSilenceFrames - cnt = (VadSilenceFrames - (cnt + 1)) + 1 := by
        omega
      rw [captureFrom_cons, vadStep_rec_silent_cont cnt acc f hf hc]
      simp only [Option.toList_none, List.nil_append]
      rw [ih (fun g hg => hs g (by simp [hg])) (cnt + 1) (acc ++ f) (by omega)
        (by simp only [List.length_cons] at hlen; omega)]
      rw [h2, List.take_succ_cons, List.drop_succ_cons, List.flatten_cons,
        List.append_assoc]

/-- Shared run shape for C1: silent frames, a voiced run, then at least
the silence-tail of silent frames.  The loop offers exactly the voiced
samples followed by the first `VadSilenceFrames` silent frames, when
the floor is cleared. -/
theorem captureRun_svs (s1 v s2 : List (List Int))
    (h1 : ∀ f ∈ s1, detectVoice f = false)
    (hv : ∀ f ∈ v, detectVoice f = true)
    (hvne : v ≠ [])
    (h2 : ∀ f ∈ s2, detectVoice f = false)
    (h10 : VadSilenceFrames ≤ s2.length) :
    (captureRun (s1 ++ v ++ s2)).2 =
      if AudioFrequency / 4 <
          (v.flatten ++ (s2.take VadSilenceFrames).flatten).length
        then [v.flatten ++ (s2.take VadSilenceFrames).flatten] else [] := by
  obtain ⟨f, v', rfl⟩ : ∃ f v', v = f :: v' := by
    cases v with
    | nil => exact absurd rfl hvne
    | cons f v' => exact ⟨f, v', rfl⟩
  unfold captureRun
  rw [List.append_assoc, captureFrom_idle_silent s1 h1, List.cons_append,
    captureFrom_cons, vadStep_idle_voiced 0 [] f (hv f (by simp))]
  simp only [Option.toList_none, List.nil_append]
  rw [captureFrom_rec_voiced_run v' (fun g hg => hv g (by simp [hg])) f s2]
  rw [captureFrom_rec_silent_close s2 h2 0 (f ++ v'.flatten)
    (by simp [VadSilenceFrames]) (by omega)]
  simp only [Nat.sub_zero]
  rw [captureFrom_idle_silent_nil (s2.drop VadSilenceFrames)
    (fun g hg => h2 g (List.mem_of_mem_drop hg))]
  simp only [List.flatten_cons, List.append_assoc, List.append_nil]

/-- Average magnitude of a constant frame is the magnitude of the
constant. -/
theorem vadAverage_replicate (k : Nat) (c : Int) (hk : k ≠ 0) :
    vadAverage (List.replicate k c) = c.natAbs := by
  unfold vadAverage
  rw [List.map_replicate, List.sum_replicate, List.length_replicate,
    smul_eq_mul, Nat.mul_div_cancel_left _ (Nat.pos_of_ne_zero hk)]

theorem detectVoice_replicate (k : Nat) (c : Int) (hk : k ≠ 0) :
    detectVoice (List.replicate k c) = decide (VadThreshold < c.natAbs) := by
  unfold detectVoice
  rw [vadAverage_replicate k c hk]

theorem detectVoice_silentFrameW : detectVoice silentFrameW = false := by
  rw [silentFrameW, detectVoice_replicate 150 0 (by norm_num)]
  decide

theorem detectVoice_voicedFrameW : detectVoice voicedFrameW = true := by
  rw [voicedFrameW, detectVoice_replicate 150 1000 (by norm_num)]
  decide

/-! ### Claim C1 -/

/-- C1, counterexample to the claim as stated: on the 20/30/15 scenario
the emitted utterance is not just the 30 voiced frames' samples — the
loop also appends the 10 silent tail frames before closing (part_004
line 363 runs on every frame while recording). -/
theorem c1_counterexample :
    (captureRun c1Frames).2 ≠ [(List.replicate 30 voicedFrameW).flatten] := by
  have hrun : (captureRun c1Frames).2 =
      [(List.replicate 30 voicedFrameW).flatten ++
        ((List.replicate 15 silentFrameW).take VadSilenceFrames).flatten] := by
    rw [c1Frames, captureRun_svs _ _ _
      (fun g hg => by rw [List.eq_of_mem_replicate hg]; exact detectVoice_silentFrameW)
      (fun g hg => by rw [List.eq_of_mem_replicate hg]; exact detectVoice_voicedFrameW)
      (by simp)
      (fun g hg => by rw [List.eq_of_mem_replicate hg]; exact detectVoice_silentFrameW)
      (by simp [VadSilenceFrames])]
    rw [if_pos]
    simp only [List.length_append, List.length_flatten, List.map_replicate,
      List.sum_replicate, smul_eq_mul, silentFrameW, voicedFrameW,
      List.length_replicate, AudioFrequency, VadSilenceFrames,
      List.take_replicate]
    omega
  rw [hrun]
  intro h
  have h2 := List.cons.injEq _ _ _ _ ▸ h
  have h3 : ((List.replicate 30 voicedFrameW).flatten ++
      ((List.replicate 15 silentFrameW).take VadSilenceFrames).flatten).length =
      (List.replicate 30 voicedFrameW).flatten.length := by rw [h2.1]
  simp only [List.length_append, List.length_flatten, List.map_replicate,
    List.sum_replicate, smul_eq_mul, List.take_replicate, silentFrameW,
    voicedFrameW, List.length_replicate, VadSilenceFrames] at h3
  omega

/-- C1, amended: with silent lead-in, a voiced run clearing the floor,
and at least `VadSilenceFrames` trailing silent frames, the loop emits
exactly one utterance consisting of the voiced frames' samples followed
by the first `VadSilenceFrames` trailing silent frames' samples; the
lead-in and any further trailing silence are excluded. -/
theorem c1_one_utterance (s1 v s2 : List (List Int))
    (h1 : ∀ f ∈ s1, detectVoice f = false)
    (hv : ∀ f ∈ v, detectVoice f = true)
    (h2 : ∀ f ∈ s2, detectVoice f = false)
    (hfloor : AudioFrequency / 4 < v.flatten.length)
    (h10 : VadSilenceFrames ≤ s2.length) :
    (captureRun (s1 ++ v ++ s2)).2 =
      [v.flatten ++ (s2.take VadSilenceFrames).flatten] := by
  have hvne : v ≠ [] := by
    intro h
    rw [h] at hfloor
    simp at hfloor
  rw [captureRun_svs s1 v s2 h1 hv hvne h2 h10, if_pos]
  rw [List.length_append]
  omega

/-- C1 witness: the amended statement at the concrete 20/30/15
scenario. -/
theorem c1_one_utterance_witness :
    (captureRun c1Frames).2 =
      [(List.replicate 30 voicedFrameW).flatten ++
        ((List.replicate 15 silentFrameW).take VadSilenceFrames).flatten] :=
  c1_one_utterance (List.replicate 20 silentFrameW)
    (List.replicate 30 voicedFrameW) (List.replicate 15 silentFrameW)
    (fun g hg => by rw [List.eq_of_mem_replicate hg]; exact detectVoice_silentFrameW)
    (fun g hg => by rw [List.eq_of_mem_replicate hg]; exact detectVoice_voicedFrameW)
    (fun g hg => by rw [List.eq_of_mem_replicate hg]; exact detectVoice_silentFrameW)
    (by simp only [List.length_flatten, List.map_replicate, List.sum_replicate,
          smul_eq_mul, voicedFrameW, List.length_replicate, AudioFrequency]
        norm_num)
    (by simp [VadSilenceFrames])

/-! ### Claim C2 -/

/-- C2, amended: an utterance is emitted iff some declaratively-closed
segment (voiced stretch plus everything up to its silence tail) has
strictly more than `AudioFrequency/4` samples.  The claim's "at least"
is corrected to "strictly more than" (part_004 line 378 uses `>`). -/
theorem c2_emission_iff (frames : List (List Int))
    (hne : ∀ f ∈ frames, f ≠ []) :
    (captureRun frames).2 ≠ [] ↔
      ∃ s ∈ specSegments frames, AudioFrequency / 4 < s.length := by
  unfold captureRun
  rw [(captureFrom_out frames).1 0 []]
  rw [Ne, List.filter_eq_nil_iff]
  push_neg
  simp [meetsFloor]

/-- C2 witness: the iff at a concrete input (one long voiced frame,
then ten silent frames). -/
theorem c2_emission_iff_witness :
    (captureRun (voicedFrameW :: List.replicate 10 silentFrameW)).2 ≠ [] ↔
      ∃ s ∈ specSegments (voicedFrameW :: List.replicate 10 silentFrameW),
        AudioFrequency / 4 < s.length :=
  c2_emission_iff (voicedFrameW :: List.replicate 10 silentFrameW)
    (by
      intro f hf
      simp only [List.mem_cons] at hf
      rcases hf with h | h
      · rw [h, voicedFrameW]; simp
      · rw [List.eq_of_mem_replicate h, silentFrameW]; simp)

theorem specFindClose_replicate_silent (f : List Int)
    (hf : detectVoice f = false) :
    ∀ (k cnt : Nat), cnt + k = VadSilenceFrames → 1 ≤ k →
      specFindClose cnt (List.replicate k f) = some (List.replicate k f, []) := by
  intro k
  induction k with
  | zero => intro cnt _ hk; omega
  | succ n ih =>
    intro cnt hsum _
    rw [List.replicate_succ]
    by_cases hn : n = 0
    · subst hn
      rw [List.replicate_zero]
      exact specFindClose_cons_close cnt f [] hf (by omega)
    · rw [specFindClose_cons_cont cnt f (List.replicate n f) hf (by omega)]
      rw [ih (cnt + 1) (by omega) (by omega)]
      simp [List.replicate_succ]

/-- C2, counterexample to the claim as stated ("at least the floor"):
on `c2Frames` the closed segment holds exactly `AudioFrequency/4 =
4000` samples — the claimed condition with "at least" holds, yet the
code discards the segment (it requires strictly more than 4000). -/
theorem c2_counterexample :
    ¬ (((captureRun c2Frames).2 ≠ []) ↔
        (∃ s ∈ specSegments c2Frames, AudioFrequency / 4 ≤ s.length)) := by
  have hvf : detectVoice (List.replicate 3990 (1000 : Int)) = true := by
    rw [detectVoice_replicate 3990 1000 (by norm_num)]
    decide
  have hsf : detectVoice ([0] : List Int) = false := by decide
  have hclose : specFindClose 0 (List.replicate 10 ([0] : List Int)) =
      some (List.replicate 10 [0], []) :=
    specFindClose_replicate_silent [0] hsf 10 0 (by simp [VadSilenceFrames])
      (by norm_num)
  have hseg : specSegments c2Frames =
      [(List.replicate 3990 (1000 : Int) :: List.replicate 10 [0]).flatten] := by
    rw [c2Frames, specSegments_cons_voiced_some _ _ _ hvf hclose,
      specSegments_nil]
  have hseglen : ((List.replicate 3990 (1000 : Int) ::
      List.replicate 10 [0]).flatten).length = 4000 := by
    simp only [List.flatten_cons, List.length_append, List.length_replicate,
      List.length_flatten, List.map_replicate, List.sum_replicate, smul_eq_mul,
      List.length_cons, List.length_nil]
  have hrun : (captureRun c2Frames).2 = [] := by
    rw [c2Frames]
    show (captureFrom ⟨false, 0, []⟩ _).2 = []
    rw [captureFrom_cons, vadStep_idle_voiced 0 [] _ hvf]
    simp only [Option.toList_none, List.nil_append]
    rw [captureFrom_rec_silent_close (List.replicate 10 [0])
      (fun g hg => by rw [List.eq_of_mem_replicate hg]; exact hsf) 0 _
      (by simp [VadSilenceFrames]) (by simp [VadSilenceFrames])]
    simp only [Nat.sub_zero]
    rw [if_neg]
    · rfl
    · simp only [List.length_append, List.length_replicate, VadSilenceFrames,
        List.take_replicate, List.length_flatten, List.map_replicate,
        List.sum_replicate, smul_eq_mul, AudioFrequency]
      norm_num
  intro hiff
  have hne : (captureRun c2Frames).2 ≠ [] := by
    refine hiff.mpr ?_
    refine ⟨(List.replicate 3990 (1000 : Int) :: List.replicate 10 [0]).flatten,
      ?_, ?_⟩
    · rw [hseg]; exact List.mem_singleton_self _
    · rw [hseglen]; decide
  exact hne hrun

/-! ### Retry loop lemmas -/

theorem retryLoop_all_fail (oracle : Nat → Option HttpResp) :
    ∀ (rem attempt : Nat),
      (∀ i, attempt ≤ i → i < attempt + rem → oracle i = none) →
      retryLoop oracle attempt rem = (attempt + rem, none) := by
  intro rem
  induction rem with
  | zero => intro a _; simp [retryLoop]
  | succ n ih =>
    intro a h
    have ha : oracle a = none := h a (le_refl a) (by omega)
    simp only [retryLoop, ha]
    rw [ih (a + 1) (fun i h1 h2 => h i (by omega) (by omega))]
    have : a + 1 + n = a + (n + 1) := by omega
    rw [this]

theorem retryLoop_success (oracle : Nat → Option HttpResp) :
    ∀ (rem attempt N : Nat) (r : HttpResp),
      attempt ≤ N → N < attempt + rem →
      (∀ i, attempt ≤ i → i < N → oracle i = none) → oracle N = some r →
      retryLoop oracle attempt rem = (N + 1, some r) := by
  intro rem
  induction rem with
  | zero => intro a N r h1 h2 _ _; omega
  | succ n ih =>
    intro a N r hle hlt hfail hsucc
    by_cases ha : a = N
    · subst ha
      simp [retryLoop, hsucc]
    · have hnone : oracle a = none := hfail a (le_refl a) (by omega)
      simp only [retryLoop, hnone]
      exact ih (a + 1) N r (by omega) (by omega)
        (fun i hi1 hi2 => hfail i (by omega) hi2) hsucc

/-! ### Claim C3 -/

/-- C3: with the backend running and a nonempty utterance, (a) when all
`maxRetriesM = 3` attempts fail at the transport level, exactly 3
attempts are made and the result is a transport error; (b) when
attempt `N < 3` is the first transport-level success, exactly `N + 1`
attempts are made — no further attempts — and a non-200 status on that
response is surfaced as a server error (without retry, by (b)'s attempt
count). -/
theorem c3_transcribe_retry_bound (samples : List Int) (hs : samples ≠ [])
    (oracle : Nat → Option HttpResp) :
    ((∀ i, i < maxRetriesM → oracle i = none) →
      transcribeModel true samples oracle =
        (.error .transport, maxRetriesM, true)) ∧
    (∀ (N : Nat) (r : HttpResp), N < maxRetriesM →
      (∀ i, i < N → oracle i = none) → oracle N = some r →
      (transcribeModel true samples oracle).2.1 = N + 1 ∧
      (r.status ≠ 200 →
        (transcribeModel true samples oracle).1 = .error (.server r.status))) := by
  have hlen : ¬ samples.length = 0 := by
    simpa [List.length_eq_zero] using hs
  constructor
  · intro hfail
    have hr : retryLoop oracle 0 maxRetriesM = (maxRetriesM, none) := by
      have := retryLoop_all_fail oracle maxRetriesM 0
        (fun i _ h2 => hfail i (by omega))
      simpa using this
    simp [transcribeModel, hlen, hr]
  · intro N r hN hfail hsucc
    have hr : retryLoop oracle 0 maxRetriesM = (N + 1, some r) :=
      retryLoop_success oracle maxRetriesM 0 N r (Nat.zero_le N) (by omega)
        (fun i _ h2 => hfail i h2) hsucc
    refine ⟨?_, fun hstatus => ?_⟩
    · simp [transcribeModel, hlen, hr]
    · simp [transcribeModel, hlen, hr, hstatus]

/-- C3 witness: all attempts fail at the transport level on a concrete
one-sample utterance. -/
theorem c3_transcribe_retry_bound_witness :
    transcribeModel true [5] (fun _ => none) =
      (.error .transport, maxRetriesM, true) :=
  (c3_transcribe_retry_bound [5] (by decide) (fun _ => none)).1 (fun i _ => rfl)

/-! ### Claim C4 -/

/-- C4: a not-running backend yields the not-running error with zero
request attempts and no WAV artifact, for every utterance; a running
backend with an empty utterance yields the validation error, again with
zero attempts and no artifact. -/
theorem c4_transcribe_preconditions :
    (∀ (samples : List Int) (oracle : Nat → Option HttpResp),
      transcribeModel false samples oracle =
        (.error .notRunning, 0, false)) ∧
    (∀ oracle : Nat → Option HttpResp,
      transcribeModel true [] oracle = (.error .validation, 0, false)) := by
  exact ⟨fun samples oracle => rfl, fun oracle => rfl⟩

/-! ### Claim C5 -/

theorem cleanupSpeechM_idem (s : SpeechSvcState) :
    cleanupSpeechM (speechCleanupState s) = (speechCleanupState s, false) := by
  obtain ⟨i, l, r, t, sd, dev, dp, dc, sq⟩ := s
  by_cases hdev : 0 < dev <;>
    cases i <;> cases l <;>
      simp [speechCleanupState, cleanupSpeechM, stopListeningM, hdev]

theorem cleanupWhisperM_idem (s : WhisperSvcState) :
    cleanupWhisperM (whisperCleanupState s) = (whisperCleanupState s, false) := by
  obtain ⟨r, p⟩ := s
  cases r <;> simp [whisperCleanupState, cleanupWhisperM]

/-- C5: for both the audio capture service and the transcription
backend, `k ≥ 1` sequential cleanups end in the same state as one
cleanup, and the call made after a first cleanup returns no error (both
cleanups always return the nil error, so every repeat call does). -/
theorem c5_cleanup_idempotent (k : Nat) (hk : 1 ≤ k) :
    (∀ s : SpeechSvcState,
        speechCleanupState^[k] s = speechCleanupState s ∧
        cleanupSpeechM (speechCleanupState s) = (speechCleanupState s, false)) ∧
    (∀ w : WhisperSvcState,
        whisperCleanupState^[k] w = whisperCleanupState w ∧
        cleanupWhisperM (whisperCleanupState w) = (whisperCleanupState w, false)) := by
  obtain ⟨m, rfl⟩ : ∃ m, k = m + 1 := ⟨k - 1, by omega⟩
  constructor
  · intro s
    refine ⟨?_, cleanupSpeechM_idem s⟩
    have hfix : speechCleanupState (speechCleanupState s) = speechCleanupState s :=
      congrArg Prod.fst (cleanupSpeechM_idem s)
    rw [Function.iterate_succ_apply]
    exact Function.iterate_fixed hfix m
  · intro w
    refine ⟨?_, cleanupWhisperM_idem w⟩
    have hfix : whisperCleanupState (whisperCleanupState w) = whisperCleanupState w := by
      show (cleanupWhisperM (whisperCleanupState w)).1 = whisperCleanupState w
      rw [cleanupWhisperM_idem w]
    rw [Function.iterate_succ_apply]
    exact Function.iterate_fixed hfix m

/-- C5 witness: two cleanups equal one on concrete initialized,
listening / running states. -/
theorem c5_cleanup_idempotent_witness :
    speechCleanupState^[2] ⟨true, true, false, false, false, 1, false, false, false⟩ =
      speechCleanupState ⟨true, true, false, false, false, 1, false, false, false⟩ ∧
    whisperCleanupState^[2] ⟨true, true⟩ = whisperCleanupState ⟨true, true⟩ :=
  ⟨((c5_cleanup_idempotent 2 (by norm_num)).1 _).1,
    ((c5_cleanup_idempotent 2 (by norm_num)).2 _).1⟩

/-! ### Claim C6 -/

theorem shutdownPass_names (l : List SvcEntry) :
    (shutdownPass l).map Prod.fst = l.map SvcEntry.name := by
  unfold shutdownPass
  split
  · next h => rw [List.length_eq_zero.mp h]; rfl
  · rw [List.map_map]; rfl

/-- C6: the shutdown pass over the snapshot invokes every snapshotted
service exactly once, in registry order; a service's error appears in
its own entry and does not remove any other service's invocation;
registration appends after the snapshot, so a service not in the
registry when the snapshot was taken is absent from the in-flight
pass. -/
theorem c6_shutdown_snapshot (gs : ShutdownRegistry) (late : SvcEntry) :
    ((shutdownPass (snapshotServices gs)).map Prod.fst =
        (snapshotServices gs).map SvcEntry.name) ∧
    (∀ s ∈ snapshotServices gs,
        (s.name, s.shutdownErr) ∈ shutdownPass (snapshotServices gs)) ∧
    (snapshotServices (registerSvc gs late) = snapshotServices gs ++ [late]) ∧
    (late.name ∉ (snapshotServices gs).map SvcEntry.name →
        late.name ∉ (shutdownPass (snapshotServices gs)).map Prod.fst) := by
  refine ⟨shutdownPass_names _, ?_, rfl, ?_⟩
  · intro s hs
    unfold shutdownPass
    split
    · next h =>
      rw [List.length_eq_zero.mp h] at hs
      exact absurd hs (by simp)
    · exact List.mem_map_of_mem _ hs
  · intro hnot
    rw [shutdownPass_names]
    exact hnot

/-- C6 witness: a service registered after the snapshot is not in the
pass over a concrete two-service snapshot. -/
theorem c6_shutdown_snapshot_witness :
    "SpeechService" ∉ (shutdownPass (snapshotServices
      ⟨[⟨"StatusService", none⟩, ⟨"WhisperServer", some "kill failed"⟩], 10⟩)).map
        Prod.fst :=
  (c6_shutdown_snapshot
    ⟨[⟨"StatusService", none⟩, ⟨"WhisperServer", some "kill failed"⟩], 10⟩
    ⟨"SpeechService", none⟩).2.2.2 (by decide)

/-! ### Claim C7 -/

/-- C7: the shutdown wait returns no later than the configured timeout,
for every set of service durations; in particular with three services
of which one blocks forever, it returns exactly at the timeout while
the other two services (whose durations are at most the timeout)
complete by then. -/
theorem c7_shutdown_within_timeout (timeout : Nat) (ds : List (Option Nat)) :
    shutdownReturnTime timeout ds ≤ timeout ∧
    (∀ a b : Nat, a ≤ timeout → b ≤ timeout →
      shutdownReturnTime timeout [some a, some b, none] = timeout ∧
      completesBy (some a) (shutdownReturnTime timeout [some a, some b, none]) ∧
      completesBy (some b) (shutdownReturnTime timeout [some a, some b, none])) := by
  constructor
  · unfold shutdownReturnTime
    cases wgDoneTime ds with
    | some m => exact min_le_right m timeout
    | none => exact le_refl timeout
  · intro a b ha hb
    have h : shutdownReturnTime timeout [some a, some b, none] = timeout := rfl
    exact ⟨h, ⟨a, rfl, by rw [h]; exact ha⟩, ⟨b, rfl, by rw [h]; exact hb⟩⟩

/-- C7 witness: timeout 10 with durations 3, 7 and a never-finishing
service. -/
theorem c7_shutdown_within_timeout_witness :
    shutdownReturnTime 10 [some 3, some 7, none] = 10 ∧
    completesBy (some 3) (shutdownReturnTime 10 [some 3, some 7, none]) ∧
    completesBy (some 7) (shutdownReturnTime 10 [some 3, some 7, none]) :=
  (c7_shutdown_within_timeout 10 [some 3, some 7, none]).2 3 7
    (by norm_num) (by norm_num)

/-! ### Claim C8 -/

theorem trySend_length_le (q : List (List Int)) (u : List Int)
    (h : q.length ≤ 1) : (trySend q u).length ≤ 1 := by
  unfold trySend
  split
  · next hlt => simp only [List.length_append, List.length_cons,
      List.length_nil]; omega
  · exact h

theorem handoffStep_preserves (st : VadState × List (List Int))
    (ev : HandoffEvent) (h : st.2.length ≤ 1) :
    (handoffStep st ev).2.length ≤ 1 := by
  cases ev with
  | frame f =>
    simp only [handoffStep]
    cases hp : (vadStep st.1 f).2 with
    | some u => exact trySend_length_le st.2 u h
    | none => exact h
  | consume =>
    simp only [handoffStep, List.length_drop]
    omega

theorem handoffRun_invariant_aux :
    ∀ (evs : List HandoffEvent) (st : VadState × List (List Int)),
      st.2.length ≤ 1 → ((evs.foldl handoffStep st).2).length ≤ 1 := by
  intro evs
  induction evs with
  | nil => intro st h; exact h
  | cons e t ih =>
    intro st h
    rw [List.foldl_cons]
    exact ih _ (handoffStep_preserves st e h)

/-- C8: along every interleaving of capture frames and consumer
receives, at most one utterance is ever pending in the handoff channel;
and an offer made while the slot is occupied leaves the channel
unchanged — the pending utterance is preserved and the new one is
dropped (the offer is total: it never blocks). -/
theorem c8_at_most_one_pending (evs : List HandoffEvent) :
    ((handoffRun evs).2.length ≤ 1) ∧
    (∀ (q : List (List Int)) (u : List Int), 1 ≤ q.length → trySend q u = q) := by
  constructor
  · exact handoffRun_invariant_aux evs _ (by simp)
  · intro q u h
    unfold trySend
    rw [if_neg]
    omega

/-- C8 witness: the invariant on a concrete event trace and the drop
behaviour on a concrete full channel. -/
theorem c8_at_most_one_pending_witness :
    ((handoffRun [HandoffEvent.consume]).2.length ≤ 1) ∧
      trySend [[1]] [2] = [[1]] :=
  ⟨(c8_at_most_one_pending [HandoffEvent.consume]).1,
    (c8_at_most_one_pending []).2 [[1]] [2] (by decide)⟩

/-! ### Claim C9 -/

theorem wavHeaderBytes_length (n r : Nat) : (wavHeaderBytes n r).length = 44 := by
  simp [wavHeaderBytes, u16le, u32le]

theorem bytesToSamples_cons2 (lo hi : Nat) (t : List Nat) :
    bytesToSamples (lo :: hi :: t) = bytesToInt16 lo hi :: bytesToSamples t := rfl

theorem bytesToInt16_int16ToBytes (s : Int) (h1 : -32768 ≤ s) (h2 : s < 32768) :
    bytesToInt16 ((s % 65536).toNat % 256) ((s % 65536).toNat / 256 % 256) = s := by
  have hmod : 0 ≤ s % 65536 := Int.emod_nonneg s (by norm_num)
  have hlt : s % 65536 < 65536 := Int.emod_lt_of_pos s (by norm_num)
  have hcase : s % 65536 = s ∨ s % 65536 = s + 65536 := by omega
  have hd : (s % 65536).toNat / 256 % 256 = (s % 65536).toNat / 256 :=
    Nat.mod_eq_of_lt (by omega)
  have hsum : (s % 65536).toNat % 256 + 256 * ((s % 65536).toNat / 256) =
      (s % 65536).toNat := Nat.mod_add_div _ _
  unfold bytesToInt16
  rw [hd]
  split
  · next hsmall =>
    rw [hsum] at hsmall ⊢
    omega
  · next hbig =>
    rw [hsum] at hbig ⊢
    omega

theorem bytesToSamples_encode (samples : List Int)
    (h : ∀ s ∈ samples, -32768 ≤ s ∧ s < 32768) :
    bytesToSamples ((samples.map int16ToBytes).flatten) = samples := by
  induction samples with
  | nil => rfl
  | cons a t ih =>
    simp only [List.map_cons, List.flatten_cons, int16ToBytes, u16le,
      List.cons_append, List.nil_append]
    rw [bytesToSamples_cons2,
      bytesToInt16_int16ToBytes a (h a (by simp)).1 (h a (by simp)).2,
      ih (fun s hs => h s (by simp [hs]))]

/-- C9, amended: writing any int16 utterance to the WAVE byte format
and reading it back yields the identical sample sequence, but the
sample rate read back is always 16000 — `readWavFile` assumes 16 kHz —
so it equals the original rate only when that rate is 16000. -/
theorem c9_wav_roundtrip (samples : List Int) (sampleRate : Nat)
    (h : ∀ s ∈ samples, -32768 ≤ s ∧ s < 32768) :
    readWavBytes (writeWavBytes samples sampleRate) = (samples, 16000) := by
  unfold readWavBytes writeWavBytes
  rw [show (44 : Nat) = (wavHeaderBytes samples.length sampleRate).length from
    (wavHeaderBytes_length _ _).symm]
  rw [List.drop_left, bytesToSamples_encode samples h]

/-- C9, counterexample to the claim as stated: an utterance recorded at
8000 Hz does not read back with its original sample rate — the reader
returns 16000. -/
theorem c9_counterexample :
    readWavBytes (writeWavBytes [0] 8000) ≠ ([0], 8000) := by
  decide

/-- C9 witness: the amended round trip on a concrete utterance covering
both int16 extremes. -/
theorem c9_wav_roundtrip_witness :
    readWavBytes (writeWavBytes [1, -5, 32767, -32768] 16000) =
      ([1, -5, 32767, -32768], 16000) :=
  c9_wav_roundtrip [1, -5, 32767, -32768] 16000 (by decide)

/-! ### Claim C10 -/

/-- C10: the first shutdown of a fresh status service closes `done` and
returns the nil error; the second shutdown closes an already-closed
channel and panics — the status service's shutdown is not idempotent,
unlike the always-nil cleanups of the capture service and the
transcription backend (shown on concrete already-cleaned states). -/
theorem c10_status_shutdown_panics_twice :
    statusShutdownM newStatusServiceModel = .ok (true, false) ∧
    statusShutdownM true = .error () ∧
    (cleanupSpeechM (speechCleanupState
      ⟨true, true, false, false, false, 1, false, false, false⟩)).2 = false ∧
    (cleanupWhisperM (whisperCleanupState ⟨true, true⟩)).2 = false :=
  ⟨rfl, rfl, rfl, rfl⟩

end Conch
